import Mathlib

/-!
Shallow embedding of the report-processing pipeline of the
`backend-project-report` repository (a FastAPI health-analytics backend),
together with theorems settling the specification claims about it.

The embedding follows the Python source:
  * `app/services/report_processing.py` — reference ranges, parameter
    extraction, classification, insights, risk scores, trends;
  * `app/utils/ml_model.py` — the `HealthRiskPredictor` class;
  * `app/api/v1/reports.py` — the `upload_report` handler's control flow.

Numeric values carried by the pipeline are embedded as rationals (`ℚ`);
Python dictionaries keyed by strings are embedded as association lists in
insertion order, with dictionary assignment embedded as an in-place update
(`dictInsert` below) matching CPython's `dict` semantics.
-/

namespace Report

/-- The three verdicts produced by the classifier
(`"Low"`, `"High"`, `"Normal"` strings in the Python source). -/
inductive Classification where
  | Normal
  | Low
  | High
deriving DecidableEq, Repr

/-- One entry of the `NORMAL_RANGES` table: a reference range with unit
(`report_processing.py`, lines 14-24). -/
structure RangeInfo where
  rmin : ℚ
  rmax : ℚ
  unit : String
deriving DecidableEq, Repr

/-- `NORMAL_RANGES` from `report_processing.py` (lines 14-24), in the
source's key order. -/
def NORMAL_RANGES : List (String × RangeInfo) :=
  [ ("Hemoglobin",    ⟨12, 16, "g/dL"⟩),
    ("RBC",           ⟨4, 11/2, "million/uL"⟩),
    ("WBC",           ⟨4, 11, "thousand/uL"⟩),
    ("Platelets",     ⟨150, 450, "thousand/uL"⟩),
    ("Glucose",       ⟨70, 100, "mg/dL"⟩),
    ("Cholesterol",   ⟨0, 200, "mg/dL"⟩),
    ("HDL",           ⟨40, 60, "mg/dL"⟩),
    ("LDL",           ⟨0, 130, "mg/dL"⟩),
    ("Triglycerides", ⟨0, 150, "mg/dL"⟩) ]

/-- One element of the `classified_data` list built by `classify_data`
(`report_processing.py`, lines 161-168). -/
structure ClassifiedParam where
  parameter : String
  value : ℚ
  unit : String
  range_min : ℚ
  range_max : ℚ
  classification : Classification
deriving DecidableEq, Repr

/-- The verdict computation of `classify_data` (lines 154-159):
`value < min → Low`, `value > max → High`, otherwise `Normal`. -/
def classifyValue (v mn mx : ℚ) : Classification :=
  if v < mn then .Low
  else if v > mx then .High
  else .Normal

/-- `classify_data` (`report_processing.py`, lines 144-170): for each
extracted `(parameter, value)` pair whose parameter is in `NORMAL_RANGES`,
append a classified entry; pairs without a reference range are dropped. -/
def classify_data (data : List (String × ℚ)) : List ClassifiedParam :=
  data.filterMap fun pv =>
    match NORMAL_RANGES.lookup pv.1 with
    | some r => some ⟨pv.1, pv.2, r.unit, r.rmin, r.rmax, classifyValue pv.2 r.rmin r.rmax⟩
    | none => none

/-- Test used by `calculate_risk_score` (line 199):
`data["classification"] in ["Low", "High"]`. -/
def isAbnormal (e : ClassifiedParam) : Bool :=
  e.classification == .Low || e.classification == .High

/-- `calculate_risk_score` (`report_processing.py`, lines 190-204):
percentage of abnormal parameters, with an explicit guard returning `0.0`
for the empty list. -/
def calculate_risk_score (processed_data : List ClassifiedParam) : ℚ :=
  if processed_data.length = 0 then 0
  else ((processed_data.countP isAbnormal : ℚ) / (processed_data.length : ℚ)) * 100

lemma classifyValue_eq_low (v mn mx : ℚ) : classifyValue v mn mx = .Low ↔ v < mn := by
  unfold classifyValue
  split_ifs with h1 h2
  · simpa using h1
  · simpa using h1
  · simpa using h1

lemma classifyValue_eq_high (v mn mx : ℚ) (hle : mn ≤ mx) :
    classifyValue v mn mx = .High ↔ mx < v := by
  unfold classifyValue
  split_ifs with h1 h2
  · simp only [reduceCtorEq, false_iff]
    intro h; linarith
  · simpa using h2
  · simpa using h2

lemma classifyValue_eq_normal (v mn mx : ℚ) :
    classifyValue v mn mx = .Normal ↔ (mn ≤ v ∧ v ≤ mx) := by
  unfold classifyValue
  split_ifs with h1 h2
  · simp only [reduceCtorEq, false_iff]
    rintro ⟨ha, _⟩; linarith
  · simp only [reduceCtorEq, false_iff]
    rintro ⟨_, hb⟩; exact absurd h2 (not_lt.2 hb)
  · simp only [true_iff]
    exact ⟨not_lt.1 h1, not_lt.1 h2⟩

lemma lookup_mem {α β : Type} [BEq α] [LawfulBEq α] {l : List (α × β)} {a : α}
    {b : β} (h : l.lookup a = some b) : (a, b) ∈ l := by
  induction l with
  | nil => simp [List.lookup] at h
  | cons kv l ih =>
    obtain ⟨k, v0⟩ := kv
    rw [List.lookup] at h
    cases hk : a == k with
    | true =>
      rw [hk] at h
      have hak : a = k := eq_of_beq hk
      have hbv : b = v0 := (Option.some.injEq _ _).mp h.symm
      subst hak
      subst hbv
      exact List.mem_cons_self _ _
    | false =>
      rw [hk] at h
      exact List.mem_cons_of_mem _ (ih h)

/-- Every reference range of `NORMAL_RANGES` is well-formed. -/
lemma normal_ranges_min_le_max {p : String} {r : RangeInfo}
    (hr : NORMAL_RANGES.lookup p = some r) : r.rmin ≤ r.rmax := by
  have hmem : (p, r) ∈ NORMAL_RANGES := lookup_mem hr
  have hall : ∀ x ∈ NORMAL_RANGES, x.2.rmin ≤ x.2.rmax := by
    intro x hx
    fin_cases hx <;> norm_num
  exact hall (p, r) hmem

/-- C5: for every extracted `(parameter, value)` pair whose parameter has a
reference range, `classify_data` produces an entry carrying that range whose
classification is `Low` exactly when `value < min`, `High` exactly when
`value > max`, and `Normal` exactly when `min ≤ value ≤ max` — so a value
equal to either boundary classifies `Normal`. -/
theorem classify_data_verdict (data : List (String × ℚ)) (p : String) (v : ℚ)
    (r : RangeInfo) (hmem : (p, v) ∈ data) (hr : NORMAL_RANGES.lookup p = some r) :
    ∃ e ∈ classify_data data,
      e.parameter = p ∧ e.value = v ∧ e.range_min = r.rmin ∧ e.range_max = r.rmax ∧
      (e.classification = .Low ↔ v < r.rmin) ∧
      (e.classification = .High ↔ r.rmax < v) ∧
      (e.classification = .Normal ↔ (r.rmin ≤ v ∧ v ≤ r.rmax)) := by
  refine ⟨⟨p, v, r.unit, r.rmin, r.rmax, classifyValue v r.rmin r.rmax⟩, ?_, rfl, rfl, rfl, rfl,
    classifyValue_eq_low v r.rmin r.rmax,
    classifyValue_eq_high v r.rmin r.rmax (normal_ranges_min_le_max hr),
    classifyValue_eq_normal v r.rmin r.rmax⟩
  simp only [classify_data, List.mem_filterMap]
  exact ⟨(p, v), hmem, by simp [hr]⟩

/-- Witness for `classify_data_verdict`: a Hemoglobin reading exactly at the
range maximum `16` classifies `Normal`. -/
theorem classify_data_verdict_witness :
    ∃ e ∈ classify_data [("Hemoglobin", 16)],
      e.parameter = "Hemoglobin" ∧ e.value = 16 ∧ e.range_min = 12 ∧ e.range_max = 16 ∧
      (e.classification = .Low ↔ (16:ℚ) < 12) ∧
      (e.classification = .High ↔ (16:ℚ) < 16) ∧
      (e.classification = .Normal ↔ ((12:ℚ) ≤ 16 ∧ (16:ℚ) ≤ 16)) :=
  classify_data_verdict [("Hemoglobin", 16)] ("Hemoglobin") 16 ⟨12, 16, "g/dL"⟩
    (by decide) (by decide)

/-- C6: the rule-based risk score is `100 × K / N` for `N` classified
parameters of which `K` are `Low` or `High`, and is exactly `0` on the
empty classified sequence. -/
theorem calculate_risk_score_formula (pd : List ClassifiedParam) :
    (pd ≠ [] →
      calculate_risk_score pd = 100 * (pd.countP isAbnormal : ℚ) / (pd.length : ℚ)) ∧
    (pd = [] → calculate_risk_score pd = 0) := by
  constructor
  · intro hne
    have hlen : pd.length ≠ 0 := fun h => hne (List.length_eq_zero.mp h)
    simp only [calculate_risk_score, if_neg hlen]
    ring
  · intro h
    subst h
    simp [calculate_risk_score]

/-- A concrete classified sequence: four parameters, one abnormal. -/
def fourParamSample : List ClassifiedParam :=
  [⟨"Hemoglobin", 13, "g/dL", 12, 16, .Normal⟩,
   ⟨"WBC", 5, "thousand/uL", 4, 11, .Normal⟩,
   ⟨"Glucose", 120, "mg/dL", 70, 100, .High⟩,
   ⟨"HDL", 50, "mg/dL", 40, 60, .Normal⟩]

/-- Witness for `calculate_risk_score_formula`: four classified parameters
with one abnormal score `25`, and the empty list scores `0`. -/
theorem calculate_risk_score_formula_witness :
    calculate_risk_score fourParamSample = 25 ∧ calculate_risk_score [] = 0 := by
  constructor
  · have h := (calculate_risk_score_formula fourParamSample).1 (by decide)
    rw [h, show fourParamSample.countP isAbnormal = 1 from by decide,
        show fourParamSample.length = 4 from by decide]
    norm_num
  · exact (calculate_risk_score_formula []).2 rfl

/-! ### Parameter extraction (`parse_medical_data`, `report_processing.py` lines 120-142)

Python string operations are embedded over `List Char` (via `String.toList`):
`text.split('\n')`, `str.lower()`, the substring test `in`, and
`re.findall(r'\d+\.?\d*', line)` followed by `float` conversion of the
first match. -/

/-- `text.split('\n')`. -/
def splitNewlines (cs : List Char) : List (List Char) :=
  cs.foldr
    (fun c acc =>
      if c = '\n' then [] :: acc
      else
        match acc with
        | [] => [[c]]
        | l :: ls => (c :: l) :: ls)
    [[]]

/-- `s.lower()`, character-wise. -/
def lowerChars (cs : List Char) : List Char := cs.map Char.toLower

/-- The Python substring test `needle in hay`. -/
def containsSub (hay needle : List Char) : Bool := decide (needle <:+: hay)

/-- Scanner state for the pattern `\d+\.?\d*`: outside any match, inside
the integer part, or past the optional decimal point (`fn / fd` is the
fractional part read so far, `fd` a power of ten). -/
inductive NumState where
  | outside
  | inInt (ip : ℕ)
  | inFrac (ip fn fd : ℕ)
deriving DecidableEq, Repr

/-- Numeric value of a completed match, as `float` reads it. -/
def numValue (ip fn fd : ℕ) : ℚ := (ip : ℚ) + (fn : ℚ) / (fd : ℚ)

/-- Value of a decimal digit character. -/
def digitVal (c : Char) : ℕ := c.toNat - 48

/-- One step of the left-to-right scan for maximal matches of
`\d+\.?\d*`: the next state, plus the match completed at this character
(if one just ended). -/
def stepChar : NumState → Char → NumState × List ℚ
  | .outside, c => if c.isDigit then (.inInt (digitVal c), []) else (.outside, [])
  | .inInt ip, c =>
      if c.isDigit then (.inInt (10 * ip + digitVal c), [])
      else if c = '.' then (.inFrac ip 0 1, [])
      else (.outside, [(ip : ℚ)])
  | .inFrac ip fn fd, c =>
      if c.isDigit then (.inFrac ip (10 * fn + digitVal c) (10 * fd), [])
      else (.outside, [numValue ip fn fd])

/-- The match still open when the line ends. -/
def flushNum : NumState → List ℚ
  | .outside => []
  | .inInt ip => [(ip : ℚ)]
  | .inFrac ip fn fd => [numValue ip fn fd]

/-- Run the scanner over a character list, accumulating completed
matches in order. -/
def scanNums (cs : List Char) (p : NumState × List ℚ) : NumState × List ℚ :=
  cs.foldl (fun p c => let s := stepChar p.1 c; (s.1, p.2 ++ s.2)) p

/-- `[float(m) for m in re.findall(r'\d+\.?\d*', line)]` (line 137). -/
def findallNums (cs : List Char) : List ℚ :=
  let p := scanNums cs (.outside, [])
  p.2 ++ flushNum p.1

/-- Python `dict` assignment `d[k] = v`: if the key is present its value
is replaced in place (keeping the key's position), otherwise the pair is
appended. Later assignments therefore overwrite earlier ones. -/
def dictInsert (d : List (String × ℚ)) (k : String) (v : ℚ) : List (String × ℚ) :=
  if d.any (fun kv => kv.1 == k) then d.map (fun kv => if kv.1 == k then (k, v) else kv)
  else d ++ [(k, v)]

/-- The inner loop of `parse_medical_data` for one line (lines 133-140):
the first parameter of `NORMAL_RANGES` (in key order) whose lowered name
occurs in the lowered line receives the line's first numeric token; the
`break` fires only when a numeric token was found, so a line with a
parameter name but no number assigns nothing. -/
def lineAssign (line : List Char) : Option (String × ℚ) :=
  NORMAL_RANGES.findSome? fun pr =>
    if containsSub (lowerChars line) (lowerChars pr.1.toList) then
      match findallNums line with
      | [] => none
      | q :: _ => some (pr.1, q)
    else none

/-- The line loop of `parse_medical_data` (lines 131-140) over the split
lines, threading the `data` dictionary. -/
def parseLines (lines : List (List Char)) : List (String × ℚ) :=
  lines.foldl
    (fun d line =>
      match lineAssign line with
      | some pv => dictInsert d pv.1 pv.2
      | none => d)
    []

/-- `parse_medical_data` (`report_processing.py`, lines 120-142). -/
def parse_medical_data (text : String) : List (String × ℚ) :=
  parseLines (splitNewlines text.toList)

lemma lookup_dictInsert_self (d : List (String × ℚ)) (k : String) (v : ℚ) :
    (dictInsert d k v).lookup k = some v := by
  unfold dictInsert
  split_ifs with h
  · induction d with
    | nil => simp at h
    | cons a d ih =>
      obtain ⟨a1, a2⟩ := a
      rw [List.any_cons, Bool.or_eq_true] at h
      by_cases hak : a1 = k
      · subst hak
        simp only [List.map_cons]
        rw [if_pos (beq_self_eq_true a1)]
        simp [List.lookup]
      · have hbeq : (a1 == k) = false := beq_eq_false_iff_ne.mpr hak
        have hkeq : (k == a1) = false := beq_eq_false_iff_ne.mpr (Ne.symm hak)
        simp only [List.map_cons]
        rw [if_neg (by simp [hbeq])]
        simp only [List.lookup, hkeq]
        exact ih (h.resolve_left (by simp [hbeq]))
  · induction d with
    | nil => simp [List.lookup]
    | cons a d ih =>
      obtain ⟨a1, a2⟩ := a
      rw [List.any_cons, Bool.or_eq_true] at h
      push_neg at h
      have hbeq : (a1 == k) = false := by
        cases hb : (a1 == k) with
        | false => rfl
        | true => exact absurd hb h.1
      have hkeq : (k == a1) = false := by
        rw [beq_eq_false_iff_ne] at hbeq ⊢
        exact Ne.symm hbeq
      simp only [List.cons_append, List.lookup, hkeq]
      exact ih (fun hh => h.2 hh)

lemma mem_dictInsert {d : List (String × ℚ)} {k : String} {v : ℚ}
    {x : String × ℚ} (hx : x ∈ dictInsert d k v) : x ∈ d ∨ x = (k, v) := by
  unfold dictInsert at hx
  split_ifs at hx with h
  · obtain ⟨a, ha, rfl⟩ := List.mem_map.mp hx
    by_cases hak : a.1 = k
    · right
      simp [beq_iff_eq.mpr hak]
    · left
      simpa [beq_eq_false_iff_ne.mpr hak] using ha
  · rcases List.mem_append.mp hx with h1 | h2
    · exact Or.inl h1
    · exact Or.inr (List.mem_singleton.mp h2)

/-- C1 counterexample: on the text `"Glucose 90\nGlucose 300"` the later
line overwrites the earlier one, so `parse_medical_data` yields
`Glucose = 300`, not `90` as the claim states. -/
theorem parse_first_match_counterexample :
    (parse_medical_data ("Glucose 90\nGlucose 300")).lookup ("Glucose") = some 300 ∧
    (300 : ℚ) ≠ 90 :=
  ⟨by decide, by decide⟩

lemma lookup_map_dictUpdate (d : List (String × ℚ)) (k q : String) (v : ℚ)
    (hq : q ≠ k) :
    (d.map (fun kv => if kv.1 == k then (k, v) else kv)).lookup q = d.lookup q := by
  induction d with
  | nil => rfl
  | cons a d ih =>
    obtain ⟨a1, a2⟩ := a
    by_cases hak : a1 = k
    · subst hak
      simp only [List.map_cons]
      rw [if_pos (beq_self_eq_true a1)]
      have hqa : (q == a1) = false := beq_eq_false_iff_ne.mpr hq
      simp only [List.lookup, hqa]
      exact ih
    · simp only [List.map_cons]
      rw [if_neg (by simp [beq_eq_false_iff_ne.mpr hak])]
      by_cases hqa : q = a1
      · subst hqa
        simp [List.lookup]
      · simp only [List.lookup, beq_eq_false_iff_ne.mpr hqa]
        exact ih

lemma lookup_append_single_val (d : List (String × ℚ)) (k q : String) (v : ℚ)
    (hq : q ≠ k) :
    (d ++ [(k, v)]).lookup q = d.lookup q := by
  induction d with
  | nil =>
    have hqk : (q == k) = false := beq_eq_false_iff_ne.mpr hq
    simp [List.lookup, hqk]
  | cons a d ih =>
    obtain ⟨a1, a2⟩ := a
    by_cases hqa : q = a1
    · subst hqa
      simp [List.lookup]
    · simp only [List.cons_append, List.lookup, beq_eq_false_iff_ne.mpr hqa]
      exact ih

lemma lookup_dictInsert_ne (d : List (String × ℚ)) (k q : String) (v : ℚ)
    (hq : q ≠ k) :
    (dictInsert d k v).lookup q = d.lookup q := by
  unfold dictInsert
  split_ifs with h
  · exact lookup_map_dictUpdate d k q v hq
  · exact lookup_append_single_val d k q v hq

lemma parseLines_lookup (lines : List (List Char)) :
    ∀ (d : List (String × ℚ)) (p : String),
      ((lines.foldl
          (fun d line =>
            match lineAssign line with
            | some pv => dictInsert d pv.1 pv.2
            | none => d) d).lookup p)
        = lines.foldl
            (fun acc line =>
              match lineAssign line with
              | some pv => if pv.1 = p then some pv.2 else acc
              | none => acc) (d.lookup p) := by
  induction lines with
  | nil => intro d p; rfl
  | cons line lines ih =>
    intro d p
    rw [List.foldl_cons, List.foldl_cons]
    cases hl : lineAssign line with
    | none =>
      simp only [hl]
      exact ih d p
    | some pv =>
      simp only [hl]
      rw [ih]
      congr 1
      by_cases hp : pv.1 = p
      · subst hp
        rw [if_pos rfl]
        exact lookup_dictInsert_self d pv.1 pv.2
      · rw [if_neg hp]
        exact lookup_dictInsert_ne d pv.1 p pv.2 (fun h => hp h.symm)

/-- The value of the LAST line that assigns the parameter, scanning the
lines in order — a line assigns `p` exactly when `lineAssign` picks `p`
on it, i.e. `p` is the first parameter of `NORMAL_RANGES` in key order
whose lowered name occurs in the lowered line, and the line holds a
numeric token; `none` when no line assigns `p`. -/
def lastAssignValue (lines : List (List Char)) (p : String) : Option ℚ :=
  lines.foldl
    (fun acc line =>
      match lineAssign line with
      | some pv => if pv.1 = p then some pv.2 else acc
      | none => acc)
    none

/-- C1 amended: later assignments overwrite earlier ones. For every input
text and every known parameter, `parse_medical_data` returns exactly the
numeric value taken from the LAST line that assigns that parameter (a
line assigns a parameter when it is the first table entry to match on
that line and the line carries a numeric token), and no value when no
line assigns it — so when the same parameter is assigned on several
lines, the last one wins (`"Glucose 90\n...\nGlucose 300"` yields
`300.0`, not `90.0`). -/
theorem parse_last_assignment_wins (text : String) (p : String) :
    (parse_medical_data text).lookup p =
      lastAssignValue (splitNewlines text.toList) p := by
  unfold parse_medical_data parseLines lastAssignValue
  rw [parseLines_lookup]
  rfl

lemma findSome?_inv {α β : Type} {f : α → Option β} {l : List α} {b : β}
    (h : l.findSome? f = some b) : ∃ a ∈ l, f a = some b := by
  induction l with
  | nil => simp [List.findSome?] at h
  | cons a l ih =>
    rw [List.findSome?] at h
    cases hfa : f a with
    | some b0 =>
      rw [hfa] at h
      exact ⟨a, List.mem_cons_self a l, hfa.trans h⟩
    | none =>
      rw [hfa] at h
      obtain ⟨a1, ha1, hfa1⟩ := ih h
      exact ⟨a1, List.mem_cons_of_mem a ha1, hfa1⟩

lemma numValue_nonneg (ip fn fd : ℕ) : 0 ≤ numValue ip fn fd := by
  unfold numValue
  positivity

lemma stepChar_nonneg (st : NumState) (c : Char) :
    ∀ q ∈ (stepChar st c).2, 0 ≤ q := by
  cases st with
  | outside =>
    intro q hq
    simp only [stepChar] at hq
    split_ifs at hq <;> simp at hq
  | inInt ip =>
    intro q hq
    simp only [stepChar] at hq
    split_ifs at hq
    · simp at hq
    · simp at hq
    · rw [List.mem_singleton] at hq
      subst hq
      exact Nat.cast_nonneg ip
  | inFrac ip fn fd =>
    intro q hq
    simp only [stepChar] at hq
    split_ifs at hq
    · simp at hq
    · rw [List.mem_singleton] at hq
      subst hq
      exact numValue_nonneg ip fn fd

lemma flushNum_nonneg (st : NumState) : ∀ q ∈ flushNum st, 0 ≤ q := by
  cases st with
  | outside => intro q hq; simp [flushNum] at hq
  | inInt ip =>
    intro q hq
    rw [flushNum, List.mem_singleton] at hq
    subst hq
    exact Nat.cast_nonneg ip
  | inFrac ip fn fd =>
    intro q hq
    rw [flushNum, List.mem_singleton] at hq
    subst hq
    exact numValue_nonneg ip fn fd

lemma scanNums_nonneg (cs : List Char) :
    ∀ st : NumState, ∀ acc : List ℚ, (∀ q ∈ acc, 0 ≤ q) →
      ∀ q ∈ (scanNums cs (st, acc)).2, 0 ≤ q := by
  induction cs with
  | nil => intro st acc hacc q hq; exact hacc q hq
  | cons c cs ih =>
    intro st acc hacc q hq
    rw [scanNums, List.foldl_cons] at hq
    refine ih (stepChar st c).1 (acc ++ (stepChar st c).2) ?_ q hq
    intro r hr
    rcases List.mem_append.mp hr with h1 | h2
    · exact hacc r h1
    · exact stepChar_nonneg st c r h2

lemma findallNums_nonneg (cs : List Char) : ∀ q ∈ findallNums cs, 0 ≤ q := by
  intro q hq
  rw [findallNums] at hq
  rcases List.mem_append.mp hq with h1 | h2
  · exact scanNums_nonneg cs .outside [] (by simp) q h1
  · exact flushNum_nonneg _ q h2

lemma lineAssign_nonneg {line : List Char} {p : String} {v : ℚ}
    (h : lineAssign line = some (p, v)) : 0 ≤ v := by
  rw [lineAssign] at h
  obtain ⟨pr, _, hpr⟩ := findSome?_inv h
  split_ifs at hpr with hc
  · cases hnums : findallNums line with
    | nil => rw [hnums] at hpr; simp at hpr
    | cons q qs =>
      rw [hnums] at hpr
      rw [Option.some.injEq, Prod.mk.injEq] at hpr
      rw [← hpr.2]
      exact findallNums_nonneg line q (hnums ▸ List.mem_cons_self q qs)

lemma parseLines_nonneg (lines : List (List Char)) :
    ∀ d : List (String × ℚ), (∀ x ∈ d, 0 ≤ x.2) →
      ∀ x ∈ lines.foldl
        (fun d line =>
          match lineAssign line with
          | some pv => dictInsert d pv.1 pv.2
          | none => d) d, 0 ≤ x.2 := by
  induction lines with
  | nil => intro d hd x hx; exact hd x hx
  | cons line lines ih =>
    intro d hd x hx
    rw [List.foldl_cons] at hx
    cases hl : lineAssign line with
    | some pv =>
      rw [hl] at hx
      refine ih (dictInsert d pv.1 pv.2) ?_ x hx
      intro y hy
      rcases mem_dictInsert hy with h1 | h2
      · exact hd y h1
      · subst h2
        exact lineAssign_nonneg hl
    | none =>
      rw [hl] at hx
      exact ih d hd x hx

/-- C10: every value extracted by `parse_medical_data` is non-negative
(the numeric pattern `\d+\.?\d*` matches only unsigned digit runs), and
consequently a pipeline parameter whose reference minimum is `0`
(Cholesterol, LDL, Triglycerides) is never classified `Low`. -/
theorem parse_values_nonneg_no_low :
    (∀ text : String, ∀ p : String, ∀ v : ℚ,
      (p, v) ∈ parse_medical_data text → 0 ≤ v) ∧
    (∀ text : String, ∀ e : ClassifiedParam,
      e ∈ classify_data (parse_medical_data text) →
      (e.parameter = "Cholesterol" ∨ e.parameter = "LDL" ∨ e.parameter = "Triglycerides") →
      e.classification ≠ .Low) := by
  have hval : ∀ text : String, ∀ p : String, ∀ v : ℚ,
      (p, v) ∈ parse_medical_data text → 0 ≤ v := by
    intro text p v hm
    exact parseLines_nonneg (splitNewlines text.toList) [] (by simp) (p, v) hm
  refine ⟨hval, ?_⟩
  intro text e he hp
  obtain ⟨pv, hpv, hmk⟩ := List.mem_filterMap.mp he
  cases hlk : NORMAL_RANGES.lookup pv.1 with
  | none =>
    simp only [hlk] at hmk
    exact Option.noConfusion hmk
  | some r =>
    simp only [hlk, Option.some.injEq] at hmk
    subst hmk
    have hv : 0 ≤ pv.2 := hval text pv.1 pv.2 hpv
    have hrmin : r.rmin = 0 := by
      rcases hp with h | h | h
      · have h1 : pv.1 = "Cholesterol" := h
        rw [h1] at hlk
        have h2 : NORMAL_RANGES.lookup ("Cholesterol")
            = some (⟨0, 200, "mg/dL"⟩ : RangeInfo) := by decide
        rw [h2, Option.some.injEq] at hlk
        rw [← hlk]
      · have h1 : pv.1 = "LDL" := h
        rw [h1] at hlk
        have h2 : NORMAL_RANGES.lookup ("LDL")
            = some (⟨0, 130, "mg/dL"⟩ : RangeInfo) := by decide
        rw [h2, Option.some.injEq] at hlk
        rw [← hlk]
      · have h1 : pv.1 = "Triglycerides" := h
        rw [h1] at hlk
        have h2 : NORMAL_RANGES.lookup ("Triglycerides")
            = some (⟨0, 150, "mg/dL"⟩ : RangeInfo) := by decide
        rw [h2, Option.some.injEq] at hlk
        rw [← hlk]
    intro hc
    have hc2 : classifyValue pv.2 r.rmin r.rmax = .Low := hc
    rw [classifyValue_eq_low, hrmin] at hc2
    exact absurd hv (not_le.mpr hc2)

/-- Witness for `parse_values_nonneg_no_low`: the text `"Cholesterol 150"`
extracts the non-negative value `150`, whose classified entry is not
`Low`. -/
theorem parse_values_nonneg_no_low_witness :
    (("Cholesterol", (150 : ℚ)) ∈ parse_medical_data ("Cholesterol 150")) ∧
    (0 : ℚ) ≤ 150 ∧
    ((⟨"Cholesterol", 150, "mg/dL", 0, 200, .Normal⟩ : ClassifiedParam)
        ∈ classify_data (parse_medical_data ("Cholesterol 150"))) ∧
    (⟨"Cholesterol", 150, "mg/dL", 0, 200, .Normal⟩ : ClassifiedParam).classification ≠ .Low :=
  ⟨by decide,
   parse_values_nonneg_no_low.1 ("Cholesterol 150") ("Cholesterol") 150 (by decide),
   by decide,
   parse_values_nonneg_no_low.2 ("Cholesterol 150")
     (⟨"Cholesterol", 150, "mg/dL", 0, 200, .Normal⟩ : ClassifiedParam)
     (by decide) (Or.inl rfl)⟩

/-! ### Insight engine (`generate_insights`, `report_processing.py` lines 172-188) -/

/-- One value of the inner `HEALTH_INSIGHTS` dictionaries. -/
structure InsightInfo where
  insight : String
  recommendation : String
deriving DecidableEq, Repr

/-- `HEALTH_INSIGHTS` (`report_processing.py`, lines 27-64), in source
order. Cholesterol deliberately has only a `"high"` entry. -/
def HEALTH_INSIGHTS : List (String × List (String × InsightInfo)) :=
  [ ("Hemoglobin",
      [ ("low", ⟨"Possible anemia",
          "Consult a doctor for possible iron deficiency. Consider iron-rich foods like spinach, red meat, and legumes."⟩),
        ("high", ⟨"Possible dehydration or other conditions",
          "Ensure adequate hydration and consult a doctor for further evaluation."⟩) ]),
    ("Glucose",
      [ ("high", ⟨"Risk of diabetes",
          "Monitor blood sugar levels. Reduce sugar intake and consult a doctor."⟩),
        ("low", ⟨"Possible hypoglycemia",
          "Eat regular meals and consult a doctor if symptoms persist."⟩) ]),
    ("Cholesterol",
      [ ("high", ⟨"Risk of cardiovascular disease",
          "Reduce saturated fat intake, exercise regularly, and consult a doctor."⟩) ]),
    ("WBC",
      [ ("high", ⟨"Possible infection or inflammation",
          "Monitor for signs of infection and consult a doctor if symptoms develop."⟩),
        ("low", ⟨"Possible immune system issues",
          "Avoid exposure to infections and consult a doctor."⟩) ]) ]

/-- `classification.lower()` applied to the verdict strings. -/
def classKey : Classification → String
  | .Normal => "normal"
  | .Low => "low"
  | .High => "high"

/-- One element of the `insights` list built by `generate_insights`. -/
structure ReportInsight where
  parameter : String
  insight : String
  recommendation : String
deriving DecidableEq, Repr

/-- `generate_insights` (`report_processing.py`, lines 172-188). The guard
checks only that the parameter is a `HEALTH_INSIGHTS` key and that the
verdict is Low/High; the inner dictionary access
`HEALTH_INSIGHTS[parameter][classification.lower()]` is unguarded, so a
missing verdict key raises `KeyError` (embedded as `Except.error` carrying
the missing key). -/
def generate_insights : List ClassifiedParam → Except String (List ReportInsight)
  | [] => .ok []
  | d :: rest =>
    match HEALTH_INSIGHTS.lookup d.parameter with
    | some inner =>
        if d.classification = .Low ∨ d.classification = .High then
          match inner.lookup (classKey d.classification) with
          | some info =>
              (generate_insights rest).map
                (fun l => ⟨d.parameter, info.insight, info.recommendation⟩ :: l)
          | none => .error (classKey d.classification)
        else generate_insights rest
    | none => generate_insights rest

/-- An entry on which the unguarded dictionary access of
`generate_insights` raises: parameter present in `HEALTH_INSIGHTS`,
verdict Low/High, verdict key absent from the inner dictionary. -/
def insightOffending (d : ClassifiedParam) : Bool :=
  match HEALTH_INSIGHTS.lookup d.parameter with
  | some inner =>
      decide (d.classification = .Low ∨ d.classification = .High) &&
        (inner.lookup (classKey d.classification)).isNone
  | none => false

/-- The insight emitted for one classified entry, when one is. -/
def insightFor (d : ClassifiedParam) : Option ReportInsight :=
  match HEALTH_INSIGHTS.lookup d.parameter with
  | some inner =>
      if d.classification = .Low ∨ d.classification = .High then
        match inner.lookup (classKey d.classification) with
        | some info => some ⟨d.parameter, info.insight, info.recommendation⟩
        | none => none
      else none
  | none => none

/-- C2 counterexample: a Cholesterol entry classified `Low` (produced by
`classify_data` itself from a negative extracted value) makes
`generate_insights` raise a `KeyError` on the missing `"low"` key instead
of skipping the entry, contradicting the claim that a missing verdict key
is not an error. -/
theorem generate_insights_keyerror_counterexample :
    generate_insights (classify_data [("Cholesterol", -5)]) = .error ("low") := by
  rfl

/-- C2 amended: `generate_insights` emits one insight per entry classified
Low/High whose (parameter, verdict) pair is in `HEALTH_INSIGHTS`, in input
order; entries classified `Normal` and entries whose parameter is absent
from `HEALTH_INSIGHTS` are skipped without error; but an entry whose
parameter IS in `HEALTH_INSIGHTS` and is classified Low/High with no inner
entry for its verdict raises a `KeyError` (the first such entry aborts the
computation). -/
theorem generate_insights_characterization (l : List ClassifiedParam) :
    generate_insights l =
      match l.find? insightOffending with
      | some d => .error (classKey d.classification)
      | none => .ok (l.filterMap insightFor) := by
  induction l with
  | nil => rfl
  | cons d rest ih =>
    rw [generate_insights]
    cases hl : HEALTH_INSIGHTS.lookup d.parameter with
    | none =>
      have hoff : insightOffending d = false := by
        simp [insightOffending, hl]
      rw [List.find?_cons_of_neg _ (by simp [hoff]), List.filterMap_cons_none]
      · exact ih
      · simp [insightFor, hl]
    | some inner =>
      by_cases hcl : d.classification = .Low ∨ d.classification = .High
      · cases hin : inner.lookup (classKey d.classification) with
        | none =>
          have hoff : insightOffending d = true := by
            simp [insightOffending, hl, hcl, hin]
          rw [List.find?_cons_of_pos _ hoff]
          simp only [hl, if_pos hcl, hin]
        | some info =>
          have hoff : insightOffending d = false := by
            simp [insightOffending, hl, hin]
          have hfor : insightFor d = some ⟨d.parameter, info.insight, info.recommendation⟩ := by
            simp [insightFor, hl, hcl, hin]
          rw [List.find?_cons_of_neg _ (by simp [hoff]),
            List.filterMap_cons_some hfor]
          simp only [hl, if_pos hcl, hin, ih]
          cases hf : rest.find? insightOffending with
          | none => simp [Except.map]
          | some d2 => simp [Except.map]
      · have hoff : insightOffending d = false := by
          simp [insightOffending, hl, hcl]
        rw [List.find?_cons_of_neg _ (by simp [hoff]), List.filterMap_cons_none]
        · simp only [hl, if_neg hcl]
          exact ih
        · simp [insightFor, hl, hcl]

/-! ### Model-based risk score (`ml_model.py` lines 91-128 and
`calculate_ml_risk_score`, `report_processing.py` lines 206-214) -/

/-- The state of `HealthRiskPredictor` relevant to `predict_risk`: the
`is_trained` flag, whether `self.model` is set, and the numeric backend
(`scaler.transform` composed with `predict_proba[0][1]`) — abstract here,
returning an error when either sklearn call raises. -/
structure Predictor where
  is_trained : Bool
  has_model : Bool
  infer : List ℚ → Except String ℚ

/-- The per-parameter defaults of `predict_risk` (`ml_model.py`,
lines 108-118). -/
def default_values : List (String × ℚ) :=
  [("Hemoglobin", 14), ("WBC", 15/2), ("RBC", 47/10), ("Platelets", 300),
   ("Glucose", 90), ("Cholesterol", 180), ("HDL", 50), ("LDL", 100),
   ("Triglycerides", 120)]

/-- The fixed feature order of `predict_risk` (`ml_model.py`, line 101). -/
def featureParams : List String :=
  ["Hemoglobin", "WBC", "RBC", "Platelets", "Glucose", "Cholesterol", "HDL",
   "LDL", "Triglycerides"]

/-- Feature extraction of `predict_risk` (`ml_model.py`, lines 100-119):
report values in the fixed order, missing parameters filled from
`default_values` via `default_values.get(param, 0.0)`. -/
def extractFeatures (report_data : List (String × ℚ)) : List ℚ :=
  featureParams.map fun param =>
    match report_data.lookup param with
    | some v => v
    | none => (default_values.lookup param).getD 0

/-- `HealthRiskPredictor.predict_risk` (`ml_model.py`, lines 91-128):
untrained or missing model short-circuits to `50.0`; otherwise the
predicted probability of the high-risk class scaled by `100`. Backend
errors propagate — `predict_risk` itself has no handler. -/
def predict_risk (m : Predictor) (report_data : List (String × ℚ)) : Except String ℚ :=
  if !m.is_trained || !m.has_model then .ok 50
  else (m.infer (extractFeatures report_data)).map (fun p => p * 100)

/-- `calculate_ml_risk_score` (`report_processing.py`, lines 206-214):
any exception from `predict_risk` is caught and replaced by `50.0`. -/
def calculate_ml_risk_score (m : Predictor) (extracted_data : List (String × ℚ)) : ℚ :=
  match predict_risk m extracted_data with
  | .ok s => s
  | .error _ => 50

/-- C4: the model-based score is exactly `50` whenever the model is
untrained or absent (for every input), and exactly `50` whenever scaling
or inference raises (the error is never propagated); otherwise it equals
the predicted high-risk probability times `100`. -/
theorem ml_risk_score_fallback (m : Predictor) (data : List (String × ℚ)) :
    (m.is_trained = false ∨ m.has_model = false →
      predict_risk m data = .ok 50 ∧ calculate_ml_risk_score m data = 50) ∧
    (∀ e : String, m.infer (extractFeatures data) = .error e →
      calculate_ml_risk_score m data = 50) ∧
    (∀ p : ℚ, m.is_trained = true → m.has_model = true →
      m.infer (extractFeatures data) = .ok p →
      calculate_ml_risk_score m data = p * 100) := by
  refine ⟨?_, ?_, ?_⟩
  · intro h
    have hb : (!m.is_trained || !m.has_model) = true := by
      rcases h with h | h <;> simp [h]
    simp [predict_risk, calculate_ml_risk_score, hb]
  · intro e he
    by_cases hb : (!m.is_trained || !m.has_model) = true
    · simp [calculate_ml_risk_score, predict_risk, hb]
    · simp only [calculate_ml_risk_score, predict_risk, hb, if_false, Bool.false_eq_true,
        if_neg]
      rw [he]
      rfl
  · intro p h1 h2 hp
    simp only [calculate_ml_risk_score, predict_risk, h1, h2, Bool.not_true,
      Bool.or_self, Bool.false_eq_true, if_neg, if_false]
    rw [hp]
    rfl

/-- A predictor whose model was never trained. -/
def untrainedPredictor : Predictor := ⟨false, false, fun _ => .ok 0⟩

/-- A trained predictor whose backend raises on every input. -/
def failingPredictor : Predictor := ⟨true, true, fun _ => .error ("scaler raised")⟩

/-- A trained predictor predicting high-risk probability `3/4`. -/
def workingPredictor : Predictor := ⟨true, true, fun _ => .ok (3/4)⟩

/-- Witness for `ml_risk_score_fallback` on three concrete predictors:
untrained gives `50`, a raising backend gives `50`, a working backend
gives `probability × 100`. -/
theorem ml_risk_score_fallback_witness :
    (predict_risk untrainedPredictor [] = .ok 50 ∧
      calculate_ml_risk_score untrainedPredictor [] = 50) ∧
    calculate_ml_risk_score failingPredictor [] = 50 ∧
    calculate_ml_risk_score workingPredictor [] = (3/4 : ℚ) * 100 :=
  ⟨(ml_risk_score_fallback untrainedPredictor []).1 (Or.inl rfl),
   (ml_risk_score_fallback failingPredictor []).2.1 ("scaler raised") rfl,
   (ml_risk_score_fallback workingPredictor []).2.2 (3/4) rfl rfl rfl⟩

/-! ### Training-data preparation (`HealthRiskPredictor.prepare_data`,
`ml_model.py` lines 16-63) -/

/-- One synthetic sample of the training batch: the nine feature values
drawn in `prepare_data` (`ml_model.py`, lines 27-37). -/
structure Sample where
  hemoglobin : ℚ
  wbc : ℚ
  rbc : ℚ
  platelets : ℚ
  glucose : ℚ
  cholesterol : ℚ
  hdl : ℚ
  ldl : ℚ
  triglycerides : ℚ
deriving DecidableEq, Repr

/-- One element of the boolean `risk_factors` array (`ml_model.py`,
lines 40-45): the disjunction of the six threshold rules for one
sample. -/
def riskFactor (s : Sample) : Bool :=
  decide (s.hemoglobin < 12) || decide (s.hemoglobin > 16) ||
  decide (s.wbc < 4) || decide (s.wbc > 11) ||
  decide (s.glucose > 100) || decide (s.cholesterol > 200)

/-- The feature row of one sample (`ml_model.py`, lines 51-61). -/
def featuresRow (s : Sample) : List ℚ :=
  [s.hemoglobin, s.wbc, s.rbc, s.platelets, s.glucose, s.cholesterol,
   s.hdl, s.ldl, s.triglycerides]

/-- The scalar label `y = (risk_factors.sum() > 2).astype(int)`
(`ml_model.py`, line 48): `risk_factors.sum()` counts the samples of the
whole batch on which at least one rule triggers, giving one batch-level
value. -/
def batchLabel (batch : List Sample) : ℕ :=
  if batch.countP riskFactor > 2 then 1 else 0

/-- `prepare_data` (`ml_model.py`, lines 16-63): the feature matrix and
the labels — the single scalar label broadcast (numpy-style) over the
whole batch. -/
def prepare_data (batch : List Sample) : List (List ℚ) × List ℕ :=
  (batch.map featuresRow, List.replicate batch.length (batchLabel batch))

/-- The labelling rule as the claim words it: one triggering event per
(sample, rule) pair, summed across the entire batch. Stated only to be
compared against the source's `batchLabel`. -/
def eventCount (s : Sample) : ℕ :=
  (if s.hemoglobin < 12 then 1 else 0) + (if s.hemoglobin > 16 then 1 else 0) +
  (if s.wbc < 4 then 1 else 0) + (if s.wbc > 11 then 1 else 0) +
  (if s.glucose > 100 then 1 else 0) + (if s.cholesterol > 200 then 1 else 0)

/-- The batch label the claim describes: `1` exactly when the triggering
events summed over the batch exceed two. -/
def eventSumLabel (batch : List Sample) : ℕ :=
  if (batch.map eventCount).sum > 2 then 1 else 0

/-- A sample triggering three of the six rules (low hemoglobin, low WBC,
high glucose). -/
def tripleAbnormalSample : Sample := ⟨10, 2, 47/10, 300, 150, 180, 50, 100, 120⟩

/-- C7 counterexample: for a one-sample batch on which three rules
trigger, the code labels the batch `0` (only one SAMPLE has a triggering
rule, and `1 > 2` is false), while the claim's rule — triggering EVENTS
summed across the batch exceed two — demands label `1`. -/
theorem prepare_data_event_count_counterexample :
    (prepare_data [tripleAbnormalSample]).2 = [0] ∧
    eventSumLabel [tripleAbnormalSample] = 1 := by
  constructor
  · decide
  · decide

/-- C7 amended: the label is computed once per batch — it is `1` exactly
when the number of samples on which at least one of the six threshold
rules triggers exceeds two — and this single shared value is broadcast as
the label of every sample. -/
theorem prepare_data_batch_level_label (batch : List Sample) :
    (prepare_data batch).2.length = batch.length ∧
    ∀ l ∈ (prepare_data batch).2,
      (l = 1 ↔ 2 < batch.countP riskFactor) ∧
      (l = 0 ↔ ¬ 2 < batch.countP riskFactor) := by
  constructor
  · simp [prepare_data]
  · intro l hl
    rw [prepare_data] at hl
    have hlb : l = batchLabel batch := List.eq_of_mem_replicate hl
    subst hlb
    unfold batchLabel
    split_ifs with h
    · simp [h]
    · simp [h]

/-- A sample triggering one rule (low hemoglobin). -/
def oneAbnormalSample : Sample := ⟨10, 7, 47/10, 300, 90, 180, 50, 100, 120⟩

/-- A sample triggering no rule. -/
def allNormalSample : Sample := ⟨14, 7, 47/10, 300, 90, 180, 50, 100, 120⟩

/-- A four-sample batch with three samples carrying a triggering rule. -/
def quadBatch : List Sample :=
  [oneAbnormalSample, oneAbnormalSample, oneAbnormalSample, allNormalSample]

/-- Witness for `prepare_data_batch_level_label`: on a four-sample batch
with three triggering samples, every label is `1`. -/
theorem prepare_data_batch_level_label_witness :
    (prepare_data quadBatch).2.length = quadBatch.length ∧
    (1 ∈ (prepare_data quadBatch).2 ∧
      ((1 = 1 ↔ 2 < quadBatch.countP riskFactor) ∧
       (1 = 0 ↔ ¬ 2 < quadBatch.countP riskFactor))) :=
  ⟨(prepare_data_batch_level_label quadBatch).1,
   by decide,
   (prepare_data_batch_level_label quadBatch).2 1 (by decide)⟩

/-! ### Pipeline entry point (`process_report_file`,
`report_processing.py` lines 66-97) -/

/-- The three text-extraction strategies. -/
inductive Strategy where
  | image
  | pdf
  | csv
deriving DecidableEq, Repr

/-- Python's `str.startswith`. -/
def startsWithStr (s pre : String) : Bool := decide (pre.toList <+: s.toList)

/-- The strategy dispatch of `process_report_file` (lines 76-83), decided
purely by the declared content-type string: prefix `"image"`, or exact
`"application/pdf"` / `"text/csv"`; anything else is unsupported. -/
def selectStrategy (file_type : String) : Option Strategy :=
  if startsWithStr file_type ("image") then some .image
  else if file_type = "application/pdf" then some .pdf
  else if file_type = "text/csv" then some .csv
  else none

/-- Errors `process_report_file` can raise: the `ValueError` of line 83
for an unsupported content type, and a `KeyError` escaping
`generate_insights`. -/
inductive PipelineError where
  | unsupportedFileType (file_type : String)
  | keyError (k : String)
deriving DecidableEq, Repr

/-- Lines 85-97 of `process_report_file`: parse, classify, insights, ML
risk score. -/
def pipelineTail (pred : Predictor) (text : String) :
    Except PipelineError (List ClassifiedParam × List ReportInsight × ℚ) :=
  let extracted_data := parse_medical_data text
  let processed_data := classify_data extracted_data
  match generate_insights processed_data with
  | .error k => .error (.keyError k)
  | .ok insights => .ok (processed_data, insights, calculate_ml_risk_score pred extracted_data)

/-- `process_report_file` (lines 66-97), parametric in the concrete
extraction backends (`extract_text_from_image` / `_pdf` / `_csv`, which
read the file content — modelled by an arbitrary type `β`) and in the
module's `health_predictor`. -/
def process_report_file {β : Type} (extractImage extractPdf extractCsv : β → String)
    (pred : Predictor) (fileContent : β) (file_type : String) :
    Except PipelineError (List ClassifiedParam × List ReportInsight × ℚ) :=
  match selectStrategy file_type with
  | none => .error (.unsupportedFileType file_type)
  | some strat =>
    pipelineTail pred
      (match strat with
       | .image => extractImage fileContent
       | .pdf => extractPdf fileContent
       | .csv => extractCsv fileContent)

/-- Whether a pipeline outcome is the unsupported-format failure. -/
def isUnsupported : Except PipelineError (List ClassifiedParam × List ReportInsight × ℚ) → Bool
  | .error (.unsupportedFileType _) => true
  | _ => false

lemma isUnsupported_pipelineTail (pred : Predictor) (text : String) :
    isUnsupported (pipelineTail pred text) = false := by
  simp only [pipelineTail]
  cases hg : generate_insights (classify_data (parse_medical_data text)) with
  | error k => rfl
  | ok ins => rfl

lemma isUnsupported_process {β : Type} (ei ep ec : β → String) (pred : Predictor)
    (b : β) (file_type : String) :
    isUnsupported (process_report_file ei ep ec pred b file_type) =
      (selectStrategy file_type).isNone := by
  unfold process_report_file
  cases hs : selectStrategy file_type with
  | none => rfl
  | some strat => exact isUnsupported_pipelineTail pred _

/-- C8: `process_report_file` fails with the unsupported-format error
exactly when the declared content type neither starts with `"image"` nor
equals `"application/pdf"` nor `"text/csv"`; and the outcome of this check
is the same for every file content, every extraction backend and every
predictor — selection inspects only the content-type string. -/
theorem process_report_file_unsupported {β γ : Type}
    (ei ep ec : β → String) (pred : Predictor) (b : β) (file_type : String)
    (ei2 ep2 ec2 : γ → String) (pred2 : Predictor) (b2 : γ) :
    (isUnsupported (process_report_file ei ep ec pred b file_type) = true ↔
      ¬(startsWithStr file_type ("image") = true ∨
        file_type = "application/pdf" ∨ file_type = "text/csv")) ∧
    isUnsupported (process_report_file ei ep ec pred b file_type) =
      isUnsupported (process_report_file ei2 ep2 ec2 pred2 b2 file_type) := by
  constructor
  · rw [isUnsupported_process]
    unfold selectStrategy
    split_ifs with h1 h2 h3 <;> simp_all
  · rw [isUnsupported_process, isUnsupported_process]

/-! ### Upload handler (`app/api/v1/reports.py`, lines 13-54) -/

/-- Which of the handler's fallible collaborators raise on a given
request: the initial `create_report` row insert (line 29), the processing
pipeline call (line 33), and the `update_report_data` persist (line 36). -/
structure UploadEnv where
  createReportFails : Bool
  processFails : Bool
  updateFails : Bool

/-- The observable outcome of `upload_report`: the response (ok, or the
propagated exception as an error string) and whether the temporary input
file still exists when the handler finishes. -/
structure UploadOutcome where
  result : Except String Unit
  tempFileExists : Bool

/-- `upload_report` (`reports.py`, lines 13-54), path by path. The
temporary file is written first (lines 20-22). `create_report` runs
BEFORE the `try` block (line 29), so its exception propagates with no
cleanup. Inside the `try`, a failure of the pipeline (line 33) or of the
update (line 36) reaches the `except` handler, which removes the file and
raises `HTTPException(500)` (lines 50-54). On success the file is removed
and the report returned (lines 45-49). -/
def upload_report (env : UploadEnv) : UploadOutcome :=
  if env.createReportFails then
    { result := .error ("create_report raised"), tempFileExists := true }
  else if env.processFails then
    { result := .error ("HTTPException 500"), tempFileExists := false }
  else if env.updateFails then
    { result := .error ("HTTPException 500"), tempFileExists := false }
  else
    { result := .ok (), tempFileExists := false }

/-- C3 (code bug): when the initial report-row creation raises — a step
between saving the temporary file and completing the pipeline — the
handler propagates the error while the temporary file is still on disk,
because `create_report` is called before the `try` block and no cleanup
path runs. The other failure paths do clean up, so the leak is specific
to this exit path. -/
theorem upload_report_leaks_on_create_failure :
    (upload_report ⟨true, false, false⟩).tempFileExists = true ∧
    (upload_report ⟨true, false, false⟩).result = .error ("create_report raised") ∧
    (upload_report ⟨false, true, false⟩).tempFileExists = false ∧
    (upload_report ⟨false, false, true⟩).tempFileExists = false ∧
    (upload_report ⟨false, false, false⟩).tempFileExists = false :=
  ⟨rfl, rfl, rfl, rfl, rfl⟩

/-! ### Trend aggregation (`generate_trends`, `report_processing.py`
lines 216-233) -/

/-- One element of a trend series (lines 227-231). -/
structure TrendEntry where
  date : String
  value : ℚ
  classification : Classification
deriving DecidableEq, Repr

/-- A persisted report row as `generate_trends` consumes it: the creation
timestamp (embedded as its `isoformat()` string) and the stored
`processed_data`. -/
structure StoredReport where
  created_at : String
  processed_data : List ClassifiedParam
deriving DecidableEq, Repr

/-- `trends[parameter].append(entry)` together with the
`if parameter not in trends` initialisation (lines 225-231); the update
keeps the key in place, a new key is appended at the end. -/
def trendAppend (m : List (String × List TrendEntry)) (p : String) (e : TrendEntry) :
    List (String × List TrendEntry) :=
  if m.any (fun kv => kv.1 == p) then
    m.map (fun kv => if kv.1 == p then (kv.1, kv.2 ++ [e]) else kv)
  else m ++ [(p, [e])]

/-- `generate_trends` (lines 216-233). The guard
`if report.processed_data:` skips reports with empty processed data; an
empty list contributes nothing to the fold either way. -/
def generate_trends (reports : List StoredReport) : List (String × List TrendEntry) :=
  reports.foldl
    (fun m r =>
      r.processed_data.foldl
        (fun m d => trendAppend m d.parameter ⟨r.created_at, d.value, d.classification⟩) m)
    []

/-- The per-parameter series the claim describes: for each report in
order, one entry per occurrence of the parameter in its processed data,
copying the value and classification. -/
def entriesFor (p : String) (reports : List StoredReport) : List TrendEntry :=
  reports.flatMap fun r =>
    (r.processed_data.filter (fun d => d.parameter == p)).map
      (fun d => ⟨r.created_at, d.value, d.classification⟩)

/-- Append a block of entries to an optional series (absent = key never
seen). -/
def appendOpt (o : Option (List TrendEntry)) (l : List TrendEntry) :
    Option (List TrendEntry) :=
  if l = [] then o else some (o.getD [] ++ l)

lemma appendOpt_assoc (o : Option (List TrendEntry)) (l1 l2 : List TrendEntry) :
    appendOpt (appendOpt o l1) l2 = appendOpt o (l1 ++ l2) := by
  unfold appendOpt
  by_cases h2 : l2 = []
  · subst h2
    simp
  · by_cases h1 : l1 = []
    · subst h1
      simp [h2]
    · rw [if_neg h2, if_neg h1, if_neg (by simp [h1]), Option.getD_some, List.append_assoc]

lemma lookup_trendAppend_self (m : List (String × List TrendEntry)) (p : String)
    (e : TrendEntry) :
    (trendAppend m p e).lookup p = some ((m.lookup p).getD [] ++ [e]) := by
  unfold trendAppend
  split_ifs with h
  · induction m with
    | nil => simp at h
    | cons a m ih =>
      obtain ⟨a1, a2⟩ := a
      rw [List.any_cons, Bool.or_eq_true] at h
      by_cases hap : a1 = p
      · subst hap
        simp only [List.map_cons]
        rw [if_pos (beq_self_eq_true a1)]
        simp [List.lookup]
      · have hbeq : (a1 == p) = false := beq_eq_false_iff_ne.mpr hap
        have hpeq : (p == a1) = false := beq_eq_false_iff_ne.mpr (Ne.symm hap)
        simp only [List.map_cons]
        rw [if_neg (by simp [hbeq])]
        simp only [List.lookup, hpeq]
        exact ih (h.resolve_left (by simp [hbeq]))
  · induction m with
    | nil => simp [List.lookup]
    | cons a m ih =>
      obtain ⟨a1, a2⟩ := a
      rw [List.any_cons, Bool.or_eq_true] at h
      push_neg at h
      have hbeq : (a1 == p) = false := by
        cases hb : (a1 == p) with
        | false => rfl
        | true => exact absurd hb h.1
      have hpeq : (p == a1) = false := by
        rw [beq_eq_false_iff_ne] at hbeq ⊢
        exact Ne.symm hbeq
      simp only [List.cons_append, List.lookup, hpeq]
      exact ih (fun hh => h.2 hh)

lemma lookup_map_trendUpdate (m : List (String × List TrendEntry)) (p q : String)
    (e : TrendEntry) (hq : q ≠ p) :
    (m.map (fun kv => if kv.1 == p then (kv.1, kv.2 ++ [e]) else kv)).lookup q
      = m.lookup q := by
  induction m with
  | nil => rfl
  | cons a m ih =>
    obtain ⟨a1, a2⟩ := a
    by_cases hap : a1 = p
    · subst hap
      simp only [List.map_cons]
      rw [if_pos (beq_self_eq_true a1)]
      have hqa : (q == a1) = false := beq_eq_false_iff_ne.mpr hq
      simp only [List.lookup, hqa]
      exact ih
    · simp only [List.map_cons]
      rw [if_neg (by simp [beq_eq_false_iff_ne.mpr hap])]
      by_cases hqa : q = a1
      · subst hqa
        simp [List.lookup]
      · simp only [List.lookup, beq_eq_false_iff_ne.mpr hqa]
        exact ih

lemma lookup_append_single (m : List (String × List TrendEntry)) (p q : String)
    (l : List TrendEntry) (hq : q ≠ p) :
    (m ++ [(p, l)]).lookup q = m.lookup q := by
  induction m with
  | nil =>
    have hqp : (q == p) = false := beq_eq_false_iff_ne.mpr hq
    simp [List.lookup, hqp]
  | cons a m ih =>
    obtain ⟨a1, a2⟩ := a
    by_cases hqa : q = a1
    · subst hqa
      simp [List.lookup]
    · simp only [List.cons_append, List.lookup, beq_eq_false_iff_ne.mpr hqa]
      exact ih

lemma lookup_trendAppend_ne (m : List (String × List TrendEntry)) (p q : String)
    (e : TrendEntry) (hq : q ≠ p) :
    (trendAppend m p e).lookup q = m.lookup q := by
  unfold trendAppend
  split_ifs with h
  · exact lookup_map_trendUpdate m p q e hq
  · exact lookup_append_single m p q [e] hq

lemma appendOpt_snoc_cons (o : Option (List TrendEntry)) (e : TrendEntry)
    (l : List TrendEntry) :
    appendOpt (some (o.getD [] ++ [e])) l = appendOpt o (e :: l) := by
  unfold appendOpt
  by_cases hl : l = []
  · subst hl
    simp
  · rw [if_neg hl, if_neg (by simp), Option.getD_some, List.append_assoc,
      List.singleton_append]

lemma innerFold_lookup (ds : List ClassifiedParam) (date : String) (p : String) :
    ∀ m : List (String × List TrendEntry),
      ((ds.foldl
          (fun m d => trendAppend m d.parameter ⟨date, d.value, d.classification⟩)
          m).lookup p)
        = appendOpt (m.lookup p)
            ((ds.filter (fun d => d.parameter == p)).map
              (fun d => ⟨date, d.value, d.classification⟩)) := by
  induction ds with
  | nil =>
    intro m
    simp [appendOpt]
  | cons d ds ih =>
    intro m
    rw [List.foldl_cons, ih]
    by_cases hdp : d.parameter = p
    · have hb : (d.parameter == p) = true := beq_iff_eq.mpr hdp
      subst hdp
      rw [lookup_trendAppend_self]
      simp only [List.filter_cons, hb, if_true, List.map_cons]
      exact appendOpt_snoc_cons _ _ _
    · have hb : (d.parameter == p) = false := beq_eq_false_iff_ne.mpr hdp
      rw [lookup_trendAppend_ne m d.parameter p _ (Ne.symm hdp)]
      simp only [List.filter_cons, hb]
      rfl

lemma generate_trends_fold (reports : List StoredReport) (p : String) :
    ∀ m : List (String × List TrendEntry),
      ((reports.foldl
          (fun m r =>
            r.processed_data.foldl
              (fun m d =>
                trendAppend m d.parameter ⟨r.created_at, d.value, d.classification⟩) m)
          m).lookup p)
        = appendOpt (m.lookup p) (entriesFor p reports) := by
  induction reports with
  | nil =>
    intro m
    simp [entriesFor, appendOpt]
  | cons r rs ih =>
    intro m
    rw [List.foldl_cons, ih, innerFold_lookup, appendOpt_assoc]
    congr 1

/-- C9: `generate_trends` maps a parameter to the series made of one
entry per occurrence of that parameter in each report's processed data,
in the order of the input reports (no secondary sort, no deduplication),
each entry copying the source value and classification and keyed by the
source timestamp; a parameter appearing in no report is absent from the
result. When every report lists each parameter at most once (as
`classify_data` output does), this is exactly one entry per report that
contains the parameter. -/
theorem generate_trends_characterization (reports : List StoredReport) (p : String)
    (hnd : ∀ r ∈ reports, (r.processed_data.map (fun d => d.parameter)).Nodup) :
    ((generate_trends reports).lookup p =
      if entriesFor p reports = [] then none else some (entriesFor p reports)) ∧
    (∀ r ∈ reports,
      (r.processed_data.filter (fun d => d.parameter == p)).length =
        if p ∈ r.processed_data.map (fun d => d.parameter) then 1 else 0) := by
  constructor
  · rw [generate_trends, generate_trends_fold]
    unfold appendOpt
    split_ifs with h
    · rfl
    · simp
  · intro r hr
    have hcount : (r.processed_data.filter (fun d => d.parameter == p)).length
        = (r.processed_data.map (fun d => d.parameter)).count p := by
      rw [List.count, List.countP_map, List.countP_eq_length_filter]
      rfl
    rw [hcount]
    by_cases hm : p ∈ r.processed_data.map (fun d => d.parameter)
    · rw [if_pos hm]
      have h1 : (r.processed_data.map (fun d => d.parameter)).count p ≤ 1 :=
        List.nodup_iff_count_le_one.mp (hnd r hr) p
      have h2 : 0 < (r.processed_data.map (fun d => d.parameter)).count p :=
        List.count_pos_iff.mpr hm
      omega
    · rw [if_neg hm, List.count_eq_zero.mpr hm]

/-- First historical report, containing a normal Glucose reading. -/
def trendReport1 : StoredReport :=
  ⟨"2024-01-01T00:00:00", [⟨"Glucose", 90, "mg/dL", 70, 100, .Normal⟩]⟩

/-- Second historical report, containing a high Glucose reading. -/
def trendReport2 : StoredReport :=
  ⟨"2024-02-01T00:00:00", [⟨"Glucose", 120, "mg/dL", 70, 100, .High⟩]⟩

/-- Third historical report, containing a low Glucose reading and a WBC
reading. -/
def trendReport3 : StoredReport :=
  ⟨"2024-03-01T00:00:00",
   [⟨"Glucose", 60, "mg/dL", 70, 100, .Low⟩,
    ⟨"WBC", 5, "thousand/uL", 4, 11, .Normal⟩]⟩

/-- Three historical reports, each containing Glucose, in chronological
order. -/
def trendBatch : List StoredReport := [trendReport1, trendReport2, trendReport3]

/-- Witness for `generate_trends_characterization` on three concrete
reports each containing Glucose: the Glucose series has one entry per
report in input order. -/
theorem generate_trends_characterization_witness :
    (∀ r ∈ trendBatch, (r.processed_data.map (fun d => d.parameter)).Nodup) ∧
    (((generate_trends trendBatch).lookup ("Glucose") =
        if entriesFor ("Glucose") trendBatch = [] then none
        else some (entriesFor ("Glucose") trendBatch)) ∧
      (∀ r ∈ trendBatch,
        (r.processed_data.filter (fun d => d.parameter == "Glucose")).length =
          if "Glucose" ∈ r.processed_data.map (fun d => d.parameter) then 1 else 0)) :=
  ⟨by decide, generate_trends_characterization trendBatch ("Glucose") (by decide)⟩

end Report
